import Mathlib

/-!
# lrpc `internal/reflectutil`: `Convert` and `ConvertSlice`

A shallow embedding of `src/internal/reflectutil/utils.go`.

The two Go functions work on `reflect.Value` and `reflect.Type`.  The embedding
makes the parts of the Go runtime they touch explicit:

* `GoType` / `Kind`: type descriptors (`reflect.Type`) and their kinds;
* `GoValue`: Go values tagged with their type; `Value` is `reflect.Value`,
  whose zero value (`reflect.Value{}`, what `reflect.ValueOf(nil)` returns) is
  `Value.invalid`;
* `Run`: a call either returns or panics (`Except Panic`);
* `Host`: what lives outside this repository and is taken as a parameter:
  reflect's conversion table (`CanConvert` / `Convert`), the method sets of the
  target types (`encoding.TextUnmarshaler`, `encoding.BinaryUnmarshaler`) and
  the `mapstructure.Decode` collaborator.

Values carry no addressability / read-only flags: every `reflect.Value` the two
functions create themselves is settable, and inputs are taken as produced by
`reflect.ValueOf`.
-/

namespace Reflectutil

/-! ## Types -/

/-- The kinds of `reflect.Kind`. -/
inductive Kind where
  | Invalid | Bool
  | Int | Int8 | Int16 | Int32 | Int64
  | Uint | Uint8 | Uint16 | Uint32 | Uint64 | Uintptr
  | Float32 | Float64 | Complex64 | Complex128
  | Array | Chan | Func | Interface | Map | Pointer | Slice | String | Struct
  | UnsafePointer
  deriving DecidableEq, Repr

/-- The predeclared non-composite types of Go. -/
inductive Basic where
  | bool
  | int | int8 | int16 | int32 | int64
  | uint | uint8 | uint16 | uint32 | uint64 | uintptr
  | float32 | float64 | complex64 | complex128
  | string | unsafePointer
  deriving DecidableEq, Repr

/-- Kind of a predeclared type. -/
def Basic.kind : Basic → Kind
  | .bool => .Bool
  | .int => .Int | .int8 => .Int8 | .int16 => .Int16 | .int32 => .Int32
  | .int64 => .Int64
  | .uint => .Uint | .uint8 => .Uint8 | .uint16 => .Uint16 | .uint32 => .Uint32
  | .uint64 => .Uint64 | .uintptr => .Uintptr
  | .float32 => .Float32 | .float64 => .Float64
  | .complex64 => .Complex64 | .complex128 => .Complex128
  | .string => .String | .unsafePointer => .UnsafePointer

/-- Name of a predeclared type, as `reflect.Type.String` prints it. -/
def Basic.name : Basic → String
  | .bool => "bool"
  | .int => "int" | .int8 => "int8" | .int16 => "int16" | .int32 => "int32"
  | .int64 => "int64"
  | .uint => "uint" | .uint8 => "uint8" | .uint16 => "uint16"
  | .uint32 => "uint32" | .uint64 => "uint64" | .uintptr => "uintptr"
  | .float32 => "float32" | .float64 => "float64"
  | .complex64 => "complex64" | .complex128 => "complex128"
  | .string => "string" | .unsafePointer => "unsafe.Pointer"

/-- Type descriptors (`reflect.Type`).  Struct, function and interface types
are identified by the text of their declaration; `named` is a defined type
(`type Name underlying`), which has the kind of its underlying type. -/
inductive GoType where
  | basic (b : Basic)
  | iface (methods : List String)
  | slice (elem : GoType)
  | array (len : Nat) (elem : GoType)
  | map (key : GoType) (elem : GoType)
  | pointer (elem : GoType)
  | chan (elem : GoType)
  | struct (fields : String)
  | func (signature : String)
  | named (name : String) (underlying : GoType)
  deriving DecidableEq, Repr

namespace GoType

/-- The empty interface `interface{}`, alias `any`. -/
def any : GoType := .iface []

/-- The type `[]any`, which is `reflect.TypeOf([]any{})`. -/
def anySlice : GoType := .slice any

/-- The type `[]byte`. -/
def byteSlice : GoType := .slice (.basic .uint8)

/-- The type `string`. -/
def string : GoType := .basic .string

/-- Method `Kind` of `reflect.Type`. -/
def kind : GoType → Kind
  | .basic b => b.kind
  | .iface _ => .Interface
  | .slice _ => .Slice
  | .array _ _ => .Array
  | .map _ _ => .Map
  | .pointer _ => .Pointer
  | .chan _ => .Chan
  | .struct _ => .Struct
  | .func _ => .Func
  | .named _ u => u.kind

/-- Method `String` of `reflect.Type`, which `%s` prints. -/
def String : GoType → String
  | .basic b => b.name
  | .iface [] => "interface \x7b\x7d"
  | .iface ms => "interface \x7b " ++ "; ".intercalate ms ++ " \x7d"
  | .slice e => "[]" ++ e.String
  | .array n e => "[" ++ toString n ++ "]" ++ e.String
  | .map k e => "map[" ++ k.String ++ "]" ++ e.String
  | .pointer e => "*" ++ e.String
  | .chan e => "chan " ++ e.String
  | .struct fs => "struct \x7b " ++ fs ++ " \x7d"
  | .func sig => "func" ++ sig
  | .named n _ => n

end GoType

/-! ## Panics and results -/

/-- The run-time panics the two functions can reach. -/
inductive Panic where
  /-- Value-error of reflect: a method called on the zero `reflect.Value`. -/
  | zeroValue (method : String)
  /-- A type assertion `x.(T)` without comma-ok whose operand has another
  dynamic type (or is nil): `interface conversion`. -/
  | interfaceConversion (want : String)
  /-- Method `Elem` of `reflect.Type` on a type without element type. -/
  | elemOfNonContainer
  /-- Method `Convert` of `reflect.Value` where `CanConvert` is false. -/
  | notConvertible
  /-- Method `Set` of `reflect.Value` with a value of another type. -/
  | notAssignable
  /-- Method `Index` of `reflect.Value` out of range, or on a value that is
  no sequence. -/
  | indexOutOfRange
  /-- Function `reflect.Append` on a value that is no slice. -/
  | appendToNonSlice
  /-- Method `Len` of `reflect.Type` on a type that is no array type. -/
  | lenOfNonArray
  deriving DecidableEq, Repr

/-- A Go call either returns a result or panics. -/
abbrev Run (α : Type) := Except Panic α

/-- Method `Elem` of `reflect.Type`: the element type of an array, channel,
map, pointer or slice type; it panics on every other kind. -/
def GoType.Elem : GoType → Run GoType
  | .slice e => .ok e
  | .array _ e => .ok e
  | .map _ e => .ok e
  | .pointer e => .ok e
  | .chan e => .ok e
  | .named _ u => u.Elem
  | _ => .error .elemOfNonContainer

/-- Method `Len` of `reflect.Type`: the declared length of an array type; it
panics on every other kind. -/
def GoType.Len : GoType → Run Nat
  | .array n _ => .ok n
  | .named _ u => u.Len
  | _ => .error .lenOfNonArray

/-! ## Values -/

/-- Go values, each tagged with its (static) type.  An interface-typed slot
holds either `nilOf` or `iface` with the dynamic value.  `other` stands for the
values whose contents neither function inspects (floats, complex numbers,
structs, non-nil maps, channels, functions); code `0` is the zero value. -/
inductive GoValue where
  | bool (t : GoType) (b : Bool)
  | int (t : GoType) (n : Int)
  | str (t : GoType) (s : String)
  | nilOf (t : GoType)
  | iface (t : GoType) (dyn : GoValue)
  | ptr (t : GoType) (target : GoValue)
  | seq (t : GoType) (elems : List GoValue)
  | other (t : GoType) (code : Nat)
  deriving Repr

namespace GoValue

/-- The type a value is tagged with. -/
def typeOf : GoValue → GoType
  | .bool t _ => t
  | .int t _ => t
  | .str t _ => t
  | .nilOf t => t
  | .iface t _ => t
  | .ptr t _ => t
  | .seq t _ => t
  | .other t _ => t

/-- Zero value of the type `shape`, tagged `tag` (`tag` is `shape` itself or
a defined type `shape` underlies). -/
def zeroAs (tag : GoType) : GoType → GoValue
  | .basic .bool => .bool tag false
  | .basic .string => .str tag ""
  | .basic .float32 => .other tag 0
  | .basic .float64 => .other tag 0
  | .basic .complex64 => .other tag 0
  | .basic .complex128 => .other tag 0
  | .basic .unsafePointer => .nilOf tag
  | .basic _ => .int tag 0
  | .iface _ => .nilOf tag
  | .slice _ => .nilOf tag
  | .array n e => .seq tag (List.replicate n (zeroAs e e))
  | .map _ _ => .nilOf tag
  | .pointer _ => .nilOf tag
  | .chan _ => .nilOf tag
  | .struct _ => .other tag 0
  | .func _ => .nilOf tag
  | .named _ u => zeroAs tag u

/-- Function `reflect.Zero(t)`, also the contents of `reflect.New(t).Elem()`. -/
def zero (t : GoType) : GoValue := zeroAs t t

/-- Method `Len` of `reflect.Value` on an array, slice or string. -/
def len : GoValue → Nat
  | .seq _ xs => xs.length
  | .str _ s => s.utf8ByteSize
  | _ => 0

/-- Elements of an array or slice value (none for a nil slice). -/
def elems : GoValue → List GoValue
  | .seq _ xs => xs
  | _ => []

/-- Reading a value into an `any`: method `Interface` of `reflect.Value`.  A
value of interface kind yields what it holds (nil stays nil); any other value
yields itself.  `none` is the nil interface. -/
def Interface (v : GoValue) : Option GoValue :=
  if v.typeOf.kind = .Interface then
    match v with
    | .iface _ d => some d
    | _ => none
  else some v

end GoValue

/-- A `reflect.Value`: the zero Value (`invalid`), or a handle on a Go value. -/
inductive Value where
  | invalid
  | valid (v : GoValue)
  deriving Repr

/-- Function `reflect.ValueOf`: `ValueOf(nil)` is the zero Value. -/
def ValueOf : Option GoValue → Value
  | none => .invalid
  | some v => .valid v

/-- Method `Type` of `reflect.Value`: it panics on the zero Value. -/
def Value.Type : Value → Run GoType
  | .invalid => .error (.zeroValue "reflect.Value.Type")
  | .valid v => .ok v.typeOf

/-- Go errors: the one `fmt.Errorf` builds, or one returned by a collaborator
(a decoder of the target type, `mapstructure.Decode`). -/
inductive GoError where
  | errorf (msg : String)
  | collaborator (msg : String)
  deriving DecidableEq, Repr

/-! ## The host: reflect's conversion table, method sets, mapstructure -/

/-- A decoding method of a target type (`UnmarshalText` or `UnmarshalBinary`):
from the receiver and the `[]byte` argument to the error it returns, or to the
receiver as it stands after a call that returned a nil error. -/
abbrev Decoder := GoValue → GoValue → Except GoError GoValue

/-- What `Convert` and `ConvertSlice` use and this repository does not define.

* `canConvert v t` is `reflect.ValueOf(v).CanConvert(t)` and `convert v t` the
  result of `.Convert(t)` where that holds; reflect gives the result type `t`.
* `textUnmarshaler t` is the method `UnmarshalText` of the values of dynamic
  type `t`, when they have it, that is, when a value of type `t` satisfies
  `encoding.TextUnmarshaler`; `binaryUnmarshaler` likewise for
  `encoding.BinaryUnmarshaler`.  A call leaves the receiver a value of the same
  type.
* `mapDecode x to` is `mapstructure.Decode(x, &to)`: the contents of `to`
  after the call and the error returned. -/
structure Host where
  canConvert : GoValue → GoType → Bool
  convert : GoValue → GoType → GoValue
  convert_type : ∀ v t, canConvert v t = true → (convert v t).typeOf = t
  textUnmarshaler : GoType → Option Decoder
  binaryUnmarshaler : GoType → Option Decoder
  text_type : ∀ t f u b r, textUnmarshaler t = some f → f u b = .ok r →
    r.typeOf = u.typeOf
  binary_type : ∀ t f u b r, binaryUnmarshaler t = some f → f u b = .ok r →
    r.typeOf = u.typeOf
  mapDecode : Option GoValue → GoValue → GoValue × Option GoError
  mapDecode_type : ∀ x tgt, (mapDecode x tgt).1.typeOf = tgt.typeOf

/-! ## Methods of `reflect.Value` -/

/-- Method `Kind` of `reflect.Value`: `Invalid` on the zero Value. -/
def Value.Kind : Value → Kind
  | .invalid => .Invalid
  | .valid v => v.typeOf.kind

/-- Method `Interface` of `reflect.Value`. -/
def Value.Interface : Value → Run (Option GoValue)
  | .invalid => .error (.zeroValue "reflect.Value.Interface")
  | .valid v => .ok v.Interface

/-- Method `CanConvert` of `reflect.Value`. -/
def Value.CanConvert (h : Host) : Value → GoType → Run Bool
  | .invalid, _ => .error (.zeroValue "reflect.Value.Type")
  | .valid v, t => .ok (h.canConvert v t)

/-- Method `Convert` of `reflect.Value`: it panics where `CanConvert` is
false. -/
def Value.Convert (h : Host) : Value → GoType → Run Value
  | .invalid, _ => .error (.zeroValue "reflect.Value.Type")
  | .valid v, t =>
    if h.canConvert v t then .ok (.valid (h.convert v t))
    else .error .notConvertible

/-- Method `Set` of `reflect.Value` on the settable variable holding `slot`:
the new contents of the variable.  It panics on the zero Value and on a value
of another type than the variable. -/
def GoValue.Set (slot : GoValue) : Value → Run GoValue
  | .invalid => .error (.zeroValue "reflect.Value.Set")
  | .valid x => if x.typeOf = slot.typeOf then .ok x else .error .notAssignable

/-- Function `reflect.Append(out, x)` with one element. -/
def Append (out : GoValue) (x : GoValue) : Run GoValue :=
  if out.typeOf.kind = .Slice then
    .ok (.seq out.typeOf (out.elems ++ [x]))
  else .error .appendToNonSlice

/-- Method `Index` of `reflect.Value` on an array or slice. -/
def GoValue.Index (out : GoValue) (i : Nat) : Run GoValue :=
  match out.elems.get? i with
  | some x => .ok x
  | none => .error .indexOutOfRange

/-- The array `out` after `out.Index(i)` has been set to `x`. -/
def GoValue.setIndex (out : GoValue) (i : Nat) (x : GoValue) : GoValue :=
  match out with
  | .seq t xs => .seq t (xs.set i x)
  | o => o

/-! ## `ConvertSlice` (utils.go, lines 86-149) -/

/-- The loop of lines 96-119: `out` is the slice built so far, `outType` the
element type of the target. -/
def sliceLoop (h : Host) (outType : GoType) :
    List (Option GoValue) → GoValue → Run GoValue
  | [], out => .ok out
  | x :: rest, out => do
    -- line 98
    let inVal := ValueOf x
    -- line 100
    let outVal := GoValue.zero outType
    -- line 103
    let inType ← inVal.Type
    let outVal ←
      if inType = outType then
        -- line 105
        outVal.Set inVal
      else do
        -- line 108
        let can ← inVal.CanConvert h outType
        if can then do
          -- line 110
          let c ← inVal.Convert h outType
          outVal.Set c
        else
          -- line 113
          outVal.Set (.valid (GoValue.zero outVal.typeOf))
    -- line 118
    let out ← Append out outVal
    sliceLoop h outType rest out

/-- The loop of lines 124-144: `i` is the index of the first value of the
list, `out` the array as filled so far. -/
def arrayLoop (h : Host) :
    List (Option GoValue) → Nat → GoValue → Run GoValue
  | [], _, out => .ok out
  | x :: rest, i, out => do
    -- line 126
    let outVal ← out.Index i
    -- line 128
    let inVal := ValueOf x
    -- line 131
    let inType ← inVal.Type
    let outVal ←
      if inType = outVal.typeOf then
        -- line 133
        outVal.Set inVal
      else do
        -- line 136
        let can ← inVal.CanConvert h outVal.typeOf
        if can then do
          -- line 138
          let c ← inVal.Convert h outVal.typeOf
          outVal.Set c
        else
          -- line 141
          outVal.Set (.valid (GoValue.zero outVal.typeOf))
    arrayLoop h rest (i + 1) (out.setIndex i outVal)

/-- Function `ConvertSlice(in, to)`, with `inp` for `in` and `toType` for `to`;
the result is an `any`, `none` being the nil interface. -/
def ConvertSlice (h : Host) (inp : List (Option GoValue)) (toType : GoType) :
    Run (Option GoValue) := do
  -- line 88
  let out := GoValue.zero toType
  if out.typeOf.kind = .Slice then do
    -- line 93
    let outType ← out.typeOf.Elem
    let out ← sliceLoop h outType inp out
    -- line 148
    pure out.Interface
  else if out.typeOf.kind = .Array ∧ out.len = inp.length then do
    let out ← arrayLoop h inp 0 out
    pure out.Interface
  else
    pure out.Interface

/-! ## `Convert` (utils.go, lines 12-82) -/

/-- The Go string a string-typed value holds. -/
def GoValue.stringOf : GoValue → String
  | .str _ s => s
  | _ => ""

/-- The conversion `[]byte(val)` of a Go string: its UTF-8 bytes. -/
def bytesOf (val : String) : GoValue :=
  .seq GoType.byteSlice
    (val.toUTF8.data.toList.map fun b => GoValue.int (.basic .uint8) b.toNat)

/-- Lines 27-33: the variable `to` (here `tgt`), a zero value of the target
type, for a target of pointer kind set to a fresh pointer to a zero value of
its element type.  The `Set` of line 32 stores a `*E` in a variable whose type
has the underlying type `*E`, which is assignable; the pointer is kept with the
type of the variable. -/
def newTo (toType : GoType) : Run GoValue := do
  let tgt := GoValue.zero toType
  if tgt.typeOf.kind = .Pointer then do
    let e ← tgt.typeOf.Elem
    pure (.ptr tgt.typeOf (GoValue.zero e))
  else
    pure tgt

/-- The type assertion `x.([]any)` of line 76: the elements when the dynamic
type of `x` is `[]any`, a panic otherwise. -/
def assertAnySlice : Option GoValue → Run (List (Option GoValue))
  | none => .error (.interfaceConversion "[]interface \x7b\x7d")
  | some v =>
    if v.typeOf = GoType.anySlice then .ok (v.elems.map GoValue.Interface)
    else .error (.interfaceConversion "[]interface \x7b\x7d")

/-- Lines 35-60, the type switch on `in.Interface()` (`x`) with the variable
`to` (`tgt`): `some` of what the switch returns, `none` when control leaves
the switch. -/
def decodeSwitch (h : Host) (x : Option GoValue) (tgt : GoValue) :
    Option (Value × Option GoError) :=
  match x with
  | none => none
  | some val =>
    if val.typeOf = GoType.string then
      -- line 38
      match tgt.Interface with
      | none => none
      | some u =>
        match h.textUnmarshaler u.typeOf with
        | none => none
        | some unmarshalText =>
          -- line 40
          match unmarshalText u (bytesOf val.stringOf) with
          | .error err => some (.invalid, some err)
          | .ok u => some (ValueOf (some u), none)
    else if val.typeOf = GoType.byteSlice then
      -- line 50
      match tgt.Interface with
      | none => none
      | some u =>
        match h.binaryUnmarshaler u.typeOf with
        | none => none
        | some unmarshalBinary =>
          -- line 52
          match unmarshalBinary u val with
          | .error err => some (.invalid, some err)
          | .ok u => some (ValueOf (some u), none)
    else none

/-- Lines 62-81, with `inV` for `in` and `tgt` for `to`. -/
def convertTail (h : Host) (inV : Value) (inType toType : GoType)
    (tgt : GoValue) : Run (Value × Option GoError) := do
  let step : Run (GoValue × Bool) :=
    -- line 63
    if inV.Kind = .Map then do
      -- line 65
      let x ← inV.Interface
      let r := h.mapDecode x tgt
      pure (r.1, r.2.isNone)
    else pure (tgt, false)
  let (tgt, decoded) ← step
  if decoded then
    -- line 67
    pure (.valid tgt, none)
  else do
    -- lines 72-73
    let guard ← do
      let t ← inV.Type
      pure (t == GoType.anySlice &&
        tgt.typeOf.kind == .Slice || tgt.typeOf.kind == .Array)
    let tgt ←
      if guard then do
        -- lines 75-78
        let x ← inV.Interface
        let elems ← assertAnySlice x
        let r ← ConvertSlice h elems toType
        tgt.Set (ValueOf r)
      else pure tgt
    -- line 81
    pure (.valid tgt, some (.errorf
      ("cannot convert " ++ inType.String ++ " to " ++ toType.String)))

/-- Function `Convert(in, toType)`, with `inV` for `in`: the pair it returns,
or the panic it ends in. -/
def Convert (h : Host) (inV : Value) (toType : GoType) :
    Run (Value × Option GoError) := do
  -- line 14
  let inType ← inV.Type
  -- line 17
  if inType = toType then
    pure (inV, none)
  else do
    -- line 22
    let can ← inV.CanConvert h toType
    if can then do
      -- line 23
      let r ← inV.Convert h toType
      pure (r, none)
    else do
      -- lines 27-33
      let tgt ← newTo toType
      -- lines 35-60
      let x ← inV.Interface
      match decodeSwitch h x tgt with
      | some r => pure r
      | none => convertTail h inV inType toType tgt

/-! ## A concrete host

`demoHost` is a small Go program's worth of host: the integer conversions of
reflect, and three target types with decoders,

```go
type Level int
func (l *Level) UnmarshalText(b []byte) error {
	if len(b) == 0 { return errors.New("empty level") }
	*l = Level(len(b)); return nil
}
type Blob struct{ n int }
func (x *Blob) UnmarshalBinary(b []byte) error {
	if len(b) == 0 { return errors.New("empty blob") }
	x.n = len(b); return nil
}
```

and a `mapstructure.Decode` that fills a struct and rejects any other target.
The other conversions of Go (floats, integer to string, identical underlying
types, boxing into an interface) are left out of `demoHost`; the evaluations
below use it only where it agrees with reflect. -/

/-- The integer kinds, with their width in bits and signedness (`int`, `uint`
and `uintptr` are 64 bits wide, as on the 64-bit platforms). -/
def intWidth : Kind → Option (Nat × Bool)
  | .Int => some (64, true) | .Int8 => some (8, true)
  | .Int16 => some (16, true) | .Int32 => some (32, true)
  | .Int64 => some (64, true)
  | .Uint => some (64, false) | .Uint8 => some (8, false)
  | .Uint16 => some (16, false) | .Uint32 => some (32, false)
  | .Uint64 => some (64, false) | .Uintptr => some (64, false)
  | _ => none

/-- Conversion of an integer to an integer kind: reduction modulo `2^w`, read
as a signed or unsigned number. -/
def wrapInt (k : Kind) (n : Int) : Int :=
  match intWidth k with
  | some (w, true) => (n + 2 ^ (w - 1)) % 2 ^ w - 2 ^ (w - 1)
  | some (w, false) => n % 2 ^ w
  | none => n

/-- The conversions `demoHost` knows: an integer to a type of integer kind. -/
def demoCanConvert (v : GoValue) (t : GoType) : Bool :=
  match v with
  | .int s _ => (intWidth s.kind).isSome && (intWidth t.kind).isSome
  | _ => false

/-- The result of the conversions of `demoCanConvert`. -/
def demoConvert (v : GoValue) (t : GoType) : GoValue :=
  match v with
  | .int _ n => .int t (wrapInt t.kind n)
  | _ => GoValue.zero t

/-- The defined type `Level`. -/
def levelType : GoType := .named "main.Level" (.basic .int)

/-- The defined type `Blob`. -/
def blobType : GoType := .named "main.Blob" (.struct "n int")

/-- Method `UnmarshalText` of `*Level`. -/
def levelUnmarshalText : Decoder := fun u b =>
  if b.len = 0 then .error (.collaborator "empty level")
  else .ok (.ptr u.typeOf (.int levelType b.len))

/-- Method `UnmarshalBinary` of `*Blob`. -/
def blobUnmarshalBinary : Decoder := fun u b =>
  if b.len = 0 then .error (.collaborator "empty blob")
  else .ok (.ptr u.typeOf (.other blobType b.len))

/-- The map decoder of `demoHost`. -/
def demoMapDecode (_x : Option GoValue) (tgt : GoValue) :
    GoValue × Option GoError :=
  if tgt.typeOf.kind = .Struct then (.other tgt.typeOf 1, none)
  else (tgt, some (.collaborator "expected a map or struct target"))

/-- The concrete host. -/
def demoHost : Host where
  canConvert := demoCanConvert
  convert := demoConvert
  convert_type := by
    intro v t _
    cases v <;> simp_all [demoConvert, demoCanConvert, GoValue.typeOf]
  textUnmarshaler := fun t =>
    if t = .pointer levelType then some levelUnmarshalText else none
  binaryUnmarshaler := fun t =>
    if t = .pointer blobType then some blobUnmarshalBinary else none
  text_type := by
    intro t f u b r hf hr
    dsimp only at hf
    split at hf
    · cases hf
      simp only [levelUnmarshalText] at hr
      split at hr
      · cases hr
      · cases hr; rfl
    · cases hf
  binary_type := by
    intro t f u b r hf hr
    dsimp only at hf
    split at hf
    · cases hf
      simp only [blobUnmarshalBinary] at hr
      split at hr
      · cases hr
      · cases hr; rfl
    · cases hf
  mapDecode := demoMapDecode
  mapDecode_type := by
    intro x tgt
    unfold demoMapDecode
    split <;> rfl

/-! ## Notions named in the statements -/

/-- The target type `toType` is text-decodable, with decoder `f`: a concrete
(non-interface) type whose values satisfy `encoding.TextUnmarshaler`, through
the method `f`.  (The zero value of an interface type is nil and satisfies no
interface.) -/
def TextDecodable (h : Host) (toType : GoType) (f : Decoder) : Prop :=
  toType.kind ≠ .Interface ∧ h.textUnmarshaler toType = some f

/-- The target type `toType` is binary-decodable, with decoder `f`. -/
def BinaryDecodable (h : Host) (toType : GoType) (f : Decoder) : Prop :=
  toType.kind ≠ .Interface ∧ h.binaryUnmarshaler toType = some f

/-- The variable `to` of lines 27-33 as a plain value: a zero value of the
target type; for a target of pointer kind a non-nil pointer, of the target
type, to a zero value of the element type. -/
def placeholder (toType : GoType) : GoValue :=
  if toType.kind = .Pointer then
    match toType.Elem with
    | .ok e => .ptr toType (GoValue.zero e)
    | .error _ => GoValue.zero toType
  else GoValue.zero toType


/-- The element rule in the words of the specification: the element unchanged
if its type is the element type `E` of the target, else its native conversion
to `E` if it is natively convertible, else the zero value of `E`. -/
def elemRule (h : Host) (E : GoType) (v : GoValue) : GoValue :=
  if v.typeOf = E then v
  else if h.canConvert v E then h.convert v E
  else GoValue.zero E

/-- The element rule along a list, in order: the list of the elements the rule
gives, or the panic of `reflect.Value.Type` at the first nil element. -/
def elemsRun (h : Host) (E : GoType) : List (Option GoValue) → Run (List GoValue)
  | [] => .ok []
  | none :: _ => .error (.zeroValue "reflect.Value.Type")
  | some v :: rest =>
    match elemsRun h E rest with
    | .ok rs => .ok (elemRule h E v :: rs)
    | .error p => .error p

/-- The elements of the array or slice an `any` holds. -/
def anyElems : Option GoValue → List GoValue
  | some v => v.elems
  | none => []

/-- The guard of lines 72-73, as Go parses it (`&&` binds tighter than `||`),
on the input `inV` and the variable `to` (`tgt`). -/
def seqGuard (inV : Value) (tgt : GoValue) : Run Bool := do
  let t ← inV.Type
  pure (t == GoType.anySlice &&
    tgt.typeOf.kind == .Slice || tgt.typeOf.kind == .Array)

/-- The body of the sequence branch, lines 75-78: the new contents of `to`. -/
def seqBranch (h : Host) (inV : Value) (toType : GoType) (tgt : GoValue) :
    Run GoValue := do
  let x ← inV.Interface
  let elems ← assertAnySlice x
  let r ← ConvertSlice h elems toType
  tgt.Set (ValueOf r)

/-- The error of line 81. -/
def cannotConvert (inType toType : GoType) : GoError :=
  .errorf ("cannot convert " ++ inType.String ++ " to " ++ toType.String)
/-! ## General facts about the embedding -/

theorem typeOf_zeroAs (tag shape : GoType) :
    (GoValue.zeroAs tag shape).typeOf = tag := by
  induction shape with
  | basic b => cases b <;> rfl
  | named n u ih => simpa [GoValue.zeroAs] using ih
  | _ => rfl

@[simp]
theorem typeOf_zero (t : GoType) : (GoValue.zero t).typeOf = t :=
  typeOf_zeroAs t t

theorem Elem_of_pointer (t : GoType) (hk : t.kind = .Pointer) :
    ∃ e, t.Elem = .ok e := by
  induction t with
  | pointer e => exact ⟨e, rfl⟩
  | named n u ih => simpa [GoType.Elem] using ih hk
  | basic b => cases b <;> simp [GoType.kind, Basic.kind] at hk
  | _ => simp [GoType.kind] at hk

theorem Elem_of_slice (t : GoType) (hk : t.kind = .Slice) :
    ∃ e, t.Elem = .ok e := by
  induction t with
  | slice e => exact ⟨e, rfl⟩
  | named n u ih => simpa [GoType.Elem] using ih hk
  | basic b => cases b <;> simp [GoType.kind, Basic.kind] at hk
  | _ => simp [GoType.kind] at hk

@[simp]
theorem typeOf_placeholder (t : GoType) : (placeholder t).typeOf = t := by
  unfold placeholder
  split
  · split
    · rfl
    · exact typeOf_zero t
  · exact typeOf_zero t

/-- Lines 27-33 never panic: a type of pointer kind has an element type. -/
theorem newTo_eq (t : GoType) : newTo t = .ok (placeholder t) := by
  unfold newTo placeholder
  by_cases hk : t.kind = .Pointer
  · obtain ⟨e, he⟩ := Elem_of_pointer t hk
    simp [hk, he, bind, Except.bind, pure, Except.pure]
  · simp [hk, pure, Except.pure]

/-- Reading a value that is not of interface kind into an `any` gives the
value itself. -/
theorem Interface_of_not_interface (v : GoValue)
    (hk : v.typeOf.kind ≠ .Interface) : v.Interface = some v := by
  simp [GoValue.Interface, hk]

/-- For a target that is not of interface kind, `to.Interface()` holds the
variable `to` itself. -/
theorem Interface_placeholder (t : GoType) (hk : t.kind ≠ .Interface) :
    (placeholder t).Interface = some (placeholder t) :=
  Interface_of_not_interface _ (by simpa using hk)

/-! ## `Convert`: the strategies that return early -/

/-- Past the identity and native-conversion tests, `Convert` is the type
switch followed by lines 62-81. -/
theorem Convert_later (h : Host) (v : GoValue) (toType : GoType)
    (hne : v.typeOf ≠ toType) (hc : h.canConvert v toType = false) :
    Convert h (.valid v) toType =
      match decodeSwitch h v.Interface (placeholder toType) with
      | some r => .ok r
      | none =>
        convertTail h (.valid v) v.typeOf toType (placeholder toType) := by
  simp only [Convert, Value.Type, Value.CanConvert, Value.Interface, newTo_eq,
    bind, Except.bind, pure, Except.pure, hne, hc, if_false]
  cases decodeSwitch h v.Interface (placeholder toType) <;> rfl

/-- Claim C4 (identity law): a value whose type is the target type is returned
as it is, with a nil error, whatever the host says about the type. -/
theorem Convert_identity (h : Host) (v : GoValue) (toType : GoType)
    (hT : v.typeOf = toType) :
    Convert h (.valid v) toType = .ok (.valid v, none) := by
  simp [Convert, Value.Type, hT, bind, Except.bind, pure, Except.pure]

/-- Witness of C4: a `*Level`, whose type has a text decoder, converted to
`*Level`. -/
theorem Convert_identity_witness :
    (GoValue.ptr (.pointer levelType) (.int levelType 7)).typeOf
        = .pointer levelType ∧
      Convert demoHost (.valid (.ptr (.pointer levelType) (.int levelType 7)))
        (.pointer levelType)
        = .ok (.valid (.ptr (.pointer levelType) (.int levelType 7)), none) :=
  ⟨rfl, Convert_identity demoHost _ _ rfl⟩

/-- Claim C5 (native conversion comes second and wins): when the type of the
input differs from the target type and reflect can convert the input, `Convert`
returns what the method `Convert` of `reflect.Value` returns, with a nil error;
no decoder, map decoder or sequence conversion takes part, whatever the kinds
and capabilities of the two types. -/
theorem Convert_native (h : Host) (v : GoValue) (toType : GoType)
    (hne : v.typeOf ≠ toType) (hc : h.canConvert v toType = true) :
    Value.Convert h (.valid v) toType = .ok (.valid (h.convert v toType)) ∧
      Convert h (.valid v) toType
        = .ok (.valid (h.convert v toType), none) := by
  simp [Convert, Value.Type, Value.CanConvert, Value.Convert, hne, hc, bind,
    Except.bind, pure, Except.pure]

/-- Witness of C5: the `int` 300 converted to `int8` is 44. -/
theorem Convert_native_witness :
    Value.Convert demoHost (.valid (.int (.basic .int) 300)) (.basic .int8)
        = .ok (.valid (.int (.basic .int8) 44))
      ∧ Convert demoHost (.valid (.int (.basic .int) 300)) (.basic .int8)
        = .ok (.valid (.int (.basic .int8) 44), none) :=
  Convert_native demoHost (.int (.basic .int) 300) (.basic .int8)
    (by decide) (by decide)

/-- Claim C6 (a failed capability decode is terminal): when the input holds a
`string` and the target is text-decodable, or holds a `[]byte` and the target
is binary-decodable, the input being neither of the target type nor natively
convertible, and the decoder called on the variable `to` rejects the input
with the error `e`, then `Convert` returns `reflect.Value{}` and exactly `e`:
whatever the map decoder and the sequence conversion would do, and not the
"cannot convert" failure of line 81. -/
theorem Convert_decode_failure (h : Host) (v val : GoValue) (toType : GoType)
    (f : Decoder) (e : GoError)
    (hne : v.typeOf ≠ toType) (hc : h.canConvert v toType = false)
    (hx : v.Interface = some val)
    (hcase :
      (val.typeOf = GoType.string ∧ TextDecodable h toType f ∧
        f (placeholder toType) (bytesOf val.stringOf) = .error e) ∨
      (val.typeOf = GoType.byteSlice ∧ BinaryDecodable h toType f ∧
        f (placeholder toType) val = .error e)) :
    Convert h (.valid v) toType = .ok (.invalid, some e) := by
  rw [Convert_later h v toType hne hc, hx]
  rcases hcase with ⟨hs, ⟨hk, hf⟩, hr⟩ | ⟨hb, ⟨hk, hf⟩, hr⟩
  · simp [decodeSwitch, hs, Interface_placeholder toType hk, hf, hr]
  · have hns : ¬ GoType.byteSlice = GoType.string := by decide
    simp [decodeSwitch, hns, hb, Interface_placeholder toType hk, hf, hr]

/-- Witness of C6: the empty string into `*Level`, and the empty `[]byte`
into `*Blob`; both decoders reject an empty input. -/
theorem Convert_decode_failure_witness :
    Convert demoHost (.valid (.str GoType.string "")) (.pointer levelType)
        = .ok (.invalid, some (.collaborator "empty level")) ∧
      Convert demoHost (.valid (.seq GoType.byteSlice [])) (.pointer blobType)
        = .ok (.invalid, some (.collaborator "empty blob")) :=
  ⟨Convert_decode_failure demoHost (.str GoType.string "")
      (.str GoType.string "") (.pointer levelType) levelUnmarshalText
      (.collaborator "empty level") (by decide) rfl rfl
      (Or.inl ⟨rfl, ⟨by decide, rfl⟩, rfl⟩),
    Convert_decode_failure demoHost (.seq GoType.byteSlice [])
      (.seq GoType.byteSlice []) (.pointer blobType) blobUnmarshalBinary
      (.collaborator "empty blob") (by decide) rfl rfl
      (Or.inr ⟨rfl, ⟨by decide, rfl⟩, rfl⟩)⟩

/-- Claim C7 (text-decode success propagation): when the input holds the
`string` `s`, the target is text-decodable, the input is neither of the target
type nor natively convertible, and the decoder accepts the bytes of `s` on the
variable `to` (a zero value of the target type; for a target of pointer kind a
non-nil pointer to a zero value), leaving it as `r`, then `Convert` returns `r`
with a nil error. -/
theorem Convert_text_success (h : Host) (v val : GoValue) (toType : GoType)
    (f : Decoder) (r : GoValue)
    (hne : v.typeOf ≠ toType) (hc : h.canConvert v toType = false)
    (hx : v.Interface = some val) (hs : val.typeOf = GoType.string)
    (hT : TextDecodable h toType f)
    (hr : f (placeholder toType) (bytesOf val.stringOf) = .ok r) :
    Convert h (.valid v) toType = .ok (.valid r, none) := by
  rw [Convert_later h v toType hne hc, hx]
  simp [decodeSwitch, hs, Interface_placeholder toType hT.1, hT.2, hr, ValueOf]

/-- Witness of C7: the string "abc" into `*Level`; the decoder is called on a
pointer to the zero `Level` and stores the length 3. -/
theorem Convert_text_success_witness :
    placeholder (.pointer levelType)
        = .ptr (.pointer levelType) (.int levelType 0) ∧
      Convert demoHost (.valid (.str GoType.string "abc")) (.pointer levelType)
        = .ok (.valid (.ptr (.pointer levelType) (.int levelType 3)), none) :=
  ⟨rfl, Convert_text_success demoHost (.str GoType.string "abc")
      (.str GoType.string "abc") (.pointer levelType) levelUnmarshalText
      (.ptr (.pointer levelType) (.int levelType 3)) (by decide) rfl rfl rfl
      ⟨by decide, rfl⟩ rfl⟩

/-! ## `ConvertSlice` -/

theorem zeroAs_of_slice (tag shape : GoType) (hk : shape.kind = .Slice) :
    GoValue.zeroAs tag shape = .nilOf tag := by
  induction shape with
  | slice e => rfl
  | named n u ih => simpa [GoValue.zeroAs] using ih hk
  | basic b => cases b <;> simp [GoType.kind, Basic.kind] at hk
  | _ => simp [GoType.kind] at hk

theorem zeroAs_of_array (tag shape : GoType) (m : Nat) (E : GoType)
    (hm : shape.Len = .ok m) (hE : shape.Elem = .ok E) :
    GoValue.zeroAs tag shape = .seq tag (List.replicate m (GoValue.zero E)) := by
  induction shape with
  | array n e =>
    simp only [GoType.Len, GoType.Elem, Except.ok.injEq] at hm hE
    subst hm; subst hE; rfl
  | named n u ih => simpa [GoValue.zeroAs] using ih hm hE
  | _ => simp [GoType.Len] at hm

theorem Len_of_array (t : GoType) (hk : t.kind = .Array) :
    ∃ m E, t.Len = .ok m ∧ t.Elem = .ok E := by
  induction t with
  | array n e => exact ⟨n, e, rfl, rfl⟩
  | named n u ih => simpa [GoType.Len, GoType.Elem] using ih hk
  | basic b => cases b <;> simp [GoType.kind, Basic.kind] at hk
  | _ => simp [GoType.kind] at hk

/-- One round of the loop of lines 96-119 on a non-nil element appends the
element the rule gives. -/
theorem sliceLoop_cons_some (h : Host) (E : GoType) (v : GoValue)
    (rest : List (Option GoValue)) (out : GoValue)
    (hk : out.typeOf.kind = .Slice) :
    sliceLoop h E (some v :: rest) out =
      sliceLoop h E rest (.seq out.typeOf (out.elems ++ [elemRule h E v])) := by
  by_cases h1 : v.typeOf = E
  · simp [sliceLoop, ValueOf, Value.Type, GoValue.Set, Append, elemRule, h1, hk,
      bind, Except.bind]
  · by_cases h2 : h.canConvert v E = true
    · simp [sliceLoop, ValueOf, Value.Type, Value.CanConvert, Value.Convert,
        GoValue.Set, Append, elemRule, h1, h2, hk, h.convert_type v E h2, bind,
        Except.bind]
    · simp [sliceLoop, ValueOf, Value.Type, Value.CanConvert, GoValue.Set,
        Append, elemRule, h1, h2, hk, bind, Except.bind]

/-- The loop of lines 96-119 on a list without nil element: every element is
appended, in order, as the rule gives it. -/
theorem sliceLoop_of_values (h : Host) (E : GoType) (xs : List GoValue) :
    ∀ out : GoValue, out.typeOf.kind = .Slice →
      sliceLoop h E (xs.map some) out =
        .ok (if xs.isEmpty then out
          else .seq out.typeOf (out.elems ++ xs.map (elemRule h E))) := by
  induction xs with
  | nil => intro out _; simp [sliceLoop]
  | cons v rest ih =>
    intro out hk
    rw [List.map_cons, sliceLoop_cons_some h E v _ out hk,
      ih _ (by simpa [GoValue.typeOf] using hk)]
    cases rest <;> simp [GoValue.typeOf, GoValue.elems]

/-- A nil element stops the loop of lines 96-119 with the panic of
`reflect.Value.Type` on the zero Value. -/
theorem sliceLoop_cons_nil (h : Host) (E : GoType)
    (rest : List (Option GoValue)) (out : GoValue) :
    sliceLoop h E (none :: rest) out
      = .error (.zeroValue "reflect.Value.Type") := by
  simp [sliceLoop, ValueOf, Value.Type, bind, Except.bind]

/-- Function `ConvertSlice` on a list without nil element and a target of
slice kind with element type `E`: the nil slice for the empty list, else the
slice of the elements the rule gives, in order. -/
theorem ConvertSlice_slice_of_values (h : Host) (xs : List GoValue)
    (toType E : GoType) (hk : toType.kind = .Slice) (hE : toType.Elem = .ok E) :
    ConvertSlice h (xs.map some) toType =
      .ok (some (if xs.isEmpty then .nilOf toType
        else .seq toType (xs.map (elemRule h E)))) := by
  have hz : GoValue.zero toType = .nilOf toType := zeroAs_of_slice _ _ hk
  have hki : toType.kind ≠ .Interface := by rw [hk]; decide
  have hs := sliceLoop_of_values h E xs (.nilOf toType)
    (by simpa [GoValue.typeOf] using hk)
  unfold ConvertSlice
  simp only [typeOf_zero, hk, if_true, hE, bind, Except.bind, pure, Except.pure]
  rw [hz, hs]
  cases xs <;> simp [GoValue.Interface, GoValue.typeOf, GoValue.elems, hki]

/-- Claim C10 (fixed-length mismatch degrade): for every list of `n` elements,
nil elements included, and every target of array kind whose declared length
`m` differs from `n`, `ConvertSlice` returns, without panic, the zero value of
the target type, which is the array of `m` zero values of the element type: no
element of the input is copied. -/
theorem ConvertSlice_length_mismatch (h : Host) (inp : List (Option GoValue))
    (toType E : GoType) (m : Nat) (hk : toType.kind = .Array)
    (hm : toType.Len = .ok m) (hE : toType.Elem = .ok E)
    (hne : m ≠ inp.length) :
    ConvertSlice h inp toType = .ok (some (GoValue.zero toType)) ∧
      GoValue.zero toType
        = .seq toType (List.replicate m (GoValue.zero E)) := by
  have hz : GoValue.zero toType
      = .seq toType (List.replicate m (GoValue.zero E)) :=
    zeroAs_of_array toType toType m E hm hE
  have hns : ¬ toType.kind = .Slice := by rw [hk]; decide
  have hki : toType.kind ≠ .Interface := by rw [hk]; decide
  refine ⟨?_, hz⟩
  unfold ConvertSlice
  simp only [typeOf_zero, hns, if_false, pure, Except.pure]
  rw [hz]
  simp [GoValue.len, hne, GoValue.Interface, GoValue.typeOf, hki]

/-- Witness of C10: `[]any{1, 2}` into `[3]int` gives `[3]int{0, 0, 0}`, not
`[3]int{1, 2, 0}`. -/
theorem ConvertSlice_length_mismatch_witness :
    ConvertSlice demoHost
        [some (.int (.basic .int) 1), some (.int (.basic .int) 2)]
        (.array 3 (.basic .int))
        = .ok (some (GoValue.zero (.array 3 (.basic .int)))) ∧
      GoValue.zero (.array 3 (.basic .int))
        = .seq (.array 3 (.basic .int))
            [.int (.basic .int) 0, .int (.basic .int) 0, .int (.basic .int) 0] :=
  ConvertSlice_length_mismatch demoHost
    [some (.int (.basic .int) 1), some (.int (.basic .int) 2)]
    (.array 3 (.basic .int)) (.basic .int) 3 rfl rfl rfl (by decide)

/-! ## Evaluations -/

/-- Claim C1, evaluated: `Convert` of `[]any{1}` to `[]int` enters the sequence
branch, stores the converted slice `[]int{1}` in `to`, and then falls through
to line 81: the slice is returned together with the non-nil error "cannot
convert []interface {} to []int". -/
theorem Convert_anySlice_returns_error :
    Convert demoHost
        (.valid (.seq GoType.anySlice [.iface GoType.any (.int (.basic .int) 1)]))
        (.slice (.basic .int))
      = .ok (.valid (.seq (.slice (.basic .int)) [.int (.basic .int) 1]),
          some (.errorf "cannot convert []interface \x7b\x7d to []int")) := by
  rfl

/-- Claim C2, evaluated: `Convert` of the string "abc" to `[3]int` enters the
sequence branch, whose guard holds for every target of array kind, and panics
in the type assertion `in.Interface().([]any)` of line 76. -/
theorem Convert_string_to_array_panics :
    Convert demoHost (.valid (.str GoType.string "abc"))
        (.array 3 (.basic .int))
      = .error (.interfaceConversion "[]interface \x7b\x7d") := by
  rfl

/-- Claim C3, evaluated: `ConvertSlice` of `[]any{nil}` to `[]int` panics at
line 103: `reflect.ValueOf(nil)` is the zero Value, and its method `Type`
panics. -/
theorem ConvertSlice_nil_element_panics :
    ConvertSlice demoHost [none] (.slice (.basic .int))
      = .error (.zeroValue "reflect.Value.Type") := by
  rfl

/-- Claim C8, evaluated: `ConvertSlice` of the two-element list `[]any{1, nil}`
to `[]int` returns no slice of length 2: it panics on the nil element. -/
theorem ConvertSlice_length_lost_on_nil :
    ConvertSlice demoHost [some (.int (.basic .int) 1), none]
        (.slice (.basic .int))
      = .error (.zeroValue "reflect.Value.Type") ∧
    ¬ ∃ r, ConvertSlice demoHost [some (.int (.basic .int) 1), none]
        (.slice (.basic .int)) = .ok (some r) ∧ r.len = 2 := by
  refine ⟨rfl, ?_⟩
  rintro ⟨r, hr, _⟩
  have hp : ConvertSlice demoHost [some (.int (.basic .int) 1), none]
      (.slice (.basic .int)) = .error (.zeroValue "reflect.Value.Type") := rfl
  rw [hp] at hr
  cases hr

/-- Claim C9, evaluated: `ConvertSlice` of `[]any{nil, "x"}` to `[]string`
does not give `[]string{"", "x"}`, the zero value of `string` for the nil
element, which is neither of type `string` nor convertible: it panics. -/
theorem ConvertSlice_rule_lost_on_nil :
    ConvertSlice demoHost [none, some (.str GoType.string "x")]
        (.slice GoType.string)
      = .error (.zeroValue "reflect.Value.Type") := by
  rfl

/-- Length preservation on the lists without nil element: for a target of
slice kind the result of `ConvertSlice` has the length of the input. -/
theorem ConvertSlice_length_of_values (h : Host) (xs : List GoValue)
    (toType : GoType) (hk : toType.kind = .Slice) :
    ∃ r, ConvertSlice h (xs.map some) toType = .ok (some r) ∧
      r.typeOf = toType ∧ r.len = xs.length := by
  obtain ⟨E, hE⟩ := Elem_of_slice toType hk
  refine ⟨_, ConvertSlice_slice_of_values h xs toType E hk hE, ?_, ?_⟩
  · cases xs <;> simp [GoValue.typeOf]
  · cases xs <;> simp [GoValue.len]

/-- An input of type `[]any` takes no case of the type switch. -/
theorem decodeSwitch_anySlice (h : Host) (v tgt : GoValue)
    (hin : v.typeOf = GoType.anySlice) :
    decodeSwitch h v.Interface tgt = none := by
  have hki : v.typeOf.kind ≠ .Interface := by rw [hin]; decide
  have h1 : ¬ GoType.anySlice = GoType.string := by decide
  have h2 : ¬ GoType.anySlice = GoType.byteSlice := by decide
  simp [Interface_of_not_interface v hki, decodeSwitch, hin, h1, h2]

/-- On the sequence path every return of `Convert` carries the error of line
81: for an input of type `[]any` that is neither of the target type nor
natively convertible, whatever the target, a call that returns has the
"cannot convert" error as its second result. -/
theorem Convert_anySlice_error (h : Host) (v : GoValue) (toType : GoType)
    (hin : v.typeOf = GoType.anySlice) (hne : v.typeOf ≠ toType)
    (hc : h.canConvert v toType = false) (r : Value × Option GoError)
    (hr : Convert h (.valid v) toType = .ok r) :
    r.2 = some (.errorf
      ("cannot convert " ++ v.typeOf.String ++ " to " ++ toType.String)) := by
  rw [Convert_later h v toType hne hc, decodeSwitch_anySlice h v _ hin] at hr
  have hm : ¬ (Value.valid v).Kind = .Map := by
    simp [Value.Kind, hin, GoType.anySlice, GoType.kind]
  simp only [convertTail, hm, if_false, bind, Except.bind, pure, Except.pure,
    Value.Type, Value.Interface, Bool.false_eq_true] at hr
  by_cases hg : (v.typeOf == GoType.anySlice &&
      (placeholder toType).typeOf.kind == .Slice ||
      (placeholder toType).typeOf.kind == .Array) = true
  · rw [if_pos hg] at hr
    cases ha : assertAnySlice v.Interface with
    | error p => rw [ha] at hr; cases hr
    | ok es =>
      rw [ha] at hr
      dsimp only at hr
      cases hs : ConvertSlice h es toType with
      | error p => rw [hs] at hr; cases hr
      | ok x =>
        rw [hs] at hr
        dsimp only at hr
        cases hset : (placeholder toType).Set (ValueOf x) with
        | error p => rw [hset] at hr; cases hr
        | ok y => rw [hset] at hr; cases hr; rfl
  · rw [if_neg hg] at hr
    cases hr; rfl

/-! ## The two loops of `ConvertSlice` -/

/-- The loop of lines 96-119 on any list: it appends the elements the rule
gives, in order, and panics at the first nil element. -/
theorem sliceLoop_eq (h : Host) (E : GoType) (inp : List (Option GoValue)) :
    ∀ out : GoValue, out.typeOf.kind = .Slice →
      sliceLoop h E inp out =
        match elemsRun h E inp with
        | .ok rs => .ok (if inp.isEmpty then out
            else .seq out.typeOf (out.elems ++ rs))
        | .error p => .error p := by
  induction inp with
  | nil => intro out _; simp [sliceLoop, elemsRun]
  | cons x rest ih =>
    intro out hk
    cases x with
    | none => simp [sliceLoop_cons_nil, elemsRun]
    | some v =>
      rw [sliceLoop_cons_some h E v rest out hk,
        ih _ (by simpa [GoValue.typeOf] using hk)]
      cases rest with
      | nil => simp [elemsRun, GoValue.typeOf, GoValue.elems]
      | cons y ys =>
        simp only [elemsRun]
        cases elemsRun h E (y :: ys) <;> simp [GoValue.typeOf, GoValue.elems]

/-- One round of the loop of lines 124-144 on a non-nil element stores the
element the rule gives at index `i`. -/
theorem arrayLoop_cons_some (h : Host) (E T : GoType) (v : GoValue)
    (rest : List (Option GoValue)) (done after : List GoValue) :
    arrayLoop h (some v :: rest) done.length
        (.seq T (done ++ GoValue.zero E :: after)) =
      arrayLoop h rest (done.length + 1)
        (.seq T (done ++ elemRule h E v :: after)) := by
  have hidx : (GoValue.seq T (done ++ GoValue.zero E :: after)).Index done.length
      = .ok (GoValue.zero E) := by
    have hget : (done ++ GoValue.zero E :: after).get? done.length
        = some (GoValue.zero E) := by
      rw [List.get?_eq_getElem?, List.getElem?_append_right (le_refl _)]
      simp
    simp only [GoValue.Index, GoValue.elems, hget]
  have hset : ∀ x, (GoValue.seq T (done ++ GoValue.zero E :: after)).setIndex
      done.length x = .seq T (done ++ x :: after) := by
    intro x; simp [GoValue.setIndex]
  by_cases h1 : v.typeOf = E
  · simp [arrayLoop, hidx, hset, ValueOf, Value.Type, GoValue.Set, elemRule, h1,
      bind, Except.bind]
  · by_cases h2 : h.canConvert v E = true
    · simp [arrayLoop, hidx, hset, ValueOf, Value.Type, Value.CanConvert,
        Value.Convert, GoValue.Set, elemRule, h1, h2, h.convert_type v E h2,
        bind, Except.bind]
    · simp [arrayLoop, hidx, hset, ValueOf, Value.Type, Value.CanConvert,
        GoValue.Set, elemRule, h1, h2, bind, Except.bind]

/-- A nil element stops the loop of lines 124-144 with the panic of
`reflect.Value.Type` on the zero Value. -/
theorem arrayLoop_cons_nil (h : Host) (E T : GoType)
    (rest : List (Option GoValue)) (done after : List GoValue) :
    arrayLoop h (none :: rest) done.length
        (.seq T (done ++ GoValue.zero E :: after))
      = .error (.zeroValue "reflect.Value.Type") := by
  have hidx : (GoValue.seq T (done ++ GoValue.zero E :: after)).Index done.length
      = .ok (GoValue.zero E) := by
    have hget : (done ++ GoValue.zero E :: after).get? done.length
        = some (GoValue.zero E) := by
      rw [List.get?_eq_getElem?, List.getElem?_append_right (le_refl _)]
      simp
    simp only [GoValue.Index, GoValue.elems, hget]
  simp [arrayLoop, hidx, ValueOf, Value.Type, bind, Except.bind]

/-- The loop of lines 124-144 on any list, from index `done.length` of an
array whose remaining slots hold zero values: it stores the elements the rule
gives, in order, and panics at the first nil element. -/
theorem arrayLoop_eq (h : Host) (E T : GoType) (inp : List (Option GoValue)) :
    ∀ done : List GoValue,
      arrayLoop h inp done.length
          (.seq T (done ++ List.replicate inp.length (GoValue.zero E))) =
        match elemsRun h E inp with
        | .ok rs => .ok (.seq T (done ++ rs))
        | .error p => .error p := by
  induction inp with
  | nil => intro done; simp [arrayLoop, elemsRun]
  | cons x rest ih =>
    intro done
    rw [List.length_cons, List.replicate_succ]
    cases x with
    | none => rw [arrayLoop_cons_nil]; simp [elemsRun]
    | some v =>
      rw [arrayLoop_cons_some]
      have hstep := ih (done ++ [elemRule h E v])
      simp only [List.length_append, List.length_singleton, List.append_assoc,
        List.singleton_append] at hstep
      rw [hstep]
      simp only [elemsRun]
      cases elemsRun h E rest <;> rfl

/-- Function `ConvertSlice` on any list and a target of slice kind with
element type `E`. -/
theorem ConvertSlice_slice_eq (h : Host) (inp : List (Option GoValue))
    (toType E : GoType) (hk : toType.kind = .Slice) (hE : toType.Elem = .ok E) :
    ConvertSlice h inp toType =
      match elemsRun h E inp with
      | .ok rs => .ok (some (if inp.isEmpty then .nilOf toType
          else .seq toType rs))
      | .error p => .error p := by
  have hz : GoValue.zero toType = .nilOf toType := zeroAs_of_slice _ _ hk
  have hki : toType.kind ≠ .Interface := by rw [hk]; decide
  have hs := sliceLoop_eq h E inp (.nilOf toType)
    (by simpa [GoValue.typeOf] using hk)
  unfold ConvertSlice
  simp only [typeOf_zero, hk, if_true, hE, bind, Except.bind, pure, Except.pure]
  rw [hz, hs]
  cases elemsRun h E inp with
  | error p => rfl
  | ok rs =>
    cases inp <;> simp [GoValue.Interface, GoValue.typeOf, GoValue.elems, hki]

/-- Function `ConvertSlice` on any list and a target of array kind with the
length of the list and element type `E`. -/
theorem ConvertSlice_array_eq (h : Host) (inp : List (Option GoValue))
    (toType E : GoType) (hk : toType.kind = .Array)
    (hm : toType.Len = .ok inp.length) (hE : toType.Elem = .ok E) :
    ConvertSlice h inp toType =
      match elemsRun h E inp with
      | .ok rs => .ok (some (.seq toType rs))
      | .error p => .error p := by
  have hz : GoValue.zero toType
      = .seq toType (List.replicate inp.length (GoValue.zero E)) :=
    zeroAs_of_array toType toType inp.length E hm hE
  have hns : ¬ toType.kind = .Slice := by rw [hk]; decide
  have hki : toType.kind ≠ .Interface := by rw [hk]; decide
  have ha := arrayLoop_eq h E toType inp []
  simp only [List.length_nil, List.nil_append] at ha
  unfold ConvertSlice
  simp only [typeOf_zero, hns, if_false, hk, bind, Except.bind, pure,
    Except.pure]
  rw [hz]
  simp only [GoValue.len, List.length_replicate, and_self, if_true, ha]
  cases elemsRun h E inp with
  | error p => rfl
  | ok rs => simp [GoValue.Interface, GoValue.typeOf, hki]

/-- Claim C11 (array and slice targets apply the identical element rule): for
every list `inp`, of length `n`, and every element type `E`, `ConvertSlice`
for the target `[n]E` and `ConvertSlice` for the target `[]E` end the same way:
both return, and the array holds at every index the element the slice holds
(the two lists of elements are equal), or both stop with the same panic. -/
theorem ConvertSlice_array_matches_slice (h : Host)
    (inp : List (Option GoValue)) (E : GoType) :
    (ConvertSlice h inp (.array inp.length E)).map anyElems
      = (ConvertSlice h inp (.slice E)).map anyElems := by
  rw [ConvertSlice_array_eq h inp (.array inp.length E) E rfl rfl rfl,
    ConvertSlice_slice_eq h inp (.slice E) E rfl rfl]
  cases hr : elemsRun h E inp with
  | error p => rfl
  | ok rs =>
    cases inp with
    | nil =>
      simp only [elemsRun, Except.ok.injEq] at hr
      subst hr
      rfl
    | cons x xs => rfl

/-! ## The scenario of the three strings -/

/-- Claim C12, as the code has it: in every host in which no `string` is
natively convertible to `int` (reflect converts integers to strings, never a
string to an integer), `ConvertSlice` of `[]any{"1", "2", "bad"}` to `[3]int`
returns `[3]int{0, 0, 0}`: each of the three elements degrades to the zero
value. -/
theorem ConvertSlice_strings_to_ints (h : Host)
    (hno : ∀ s, h.canConvert (.str GoType.string s) (.basic .int) = false) :
    ConvertSlice h
        [some (.str GoType.string "1"), some (.str GoType.string "2"),
          some (.str GoType.string "bad")]
        (.array 3 (.basic .int))
      = .ok (some (.seq (.array 3 (.basic .int))
          [.int (.basic .int) 0, .int (.basic .int) 0, .int (.basic .int) 0])) := by
  have hne : ¬ GoType.string = GoType.basic .int := by decide
  rw [ConvertSlice_array_eq h
    [some (.str GoType.string "1"), some (.str GoType.string "2"),
      some (.str GoType.string "bad")]
    (.array 3 (.basic .int)) (.basic .int) rfl rfl rfl]
  simp [elemsRun, elemRule, GoValue.typeOf, hne, hno, GoValue.zero,
    GoValue.zeroAs]

/-- Witness of C12 as the code has it, in `demoHost`. -/
theorem ConvertSlice_strings_to_ints_witness :
    ConvertSlice demoHost
        [some (.str GoType.string "1"), some (.str GoType.string "2"),
          some (.str GoType.string "bad")]
        (.array 3 (.basic .int))
      = .ok (some (.seq (.array 3 (.basic .int))
          [.int (.basic .int) 0, .int (.basic .int) 0, .int (.basic .int) 0])) :=
  ConvertSlice_strings_to_ints demoHost (fun _ => rfl)

/-- Counterexample to C12 as stated: `ConvertSlice` of `[]any{"1", "2", "bad"}`
to `[3]int` does not return `[3]int{1, 2, 0}`. -/
theorem ConvertSlice_strings_not_parsed :
    ConvertSlice demoHost
        [some (.str GoType.string "1"), some (.str GoType.string "2"),
          some (.str GoType.string "bad")]
        (.array 3 (.basic .int))
      ≠ .ok (some (.seq (.array 3 (.basic .int))
          [.int (.basic .int) 1, .int (.basic .int) 2, .int (.basic .int) 0])) := by
  have hval : ConvertSlice demoHost
      [some (.str GoType.string "1"), some (.str GoType.string "2"),
        some (.str GoType.string "bad")]
      (.array 3 (.basic .int))
      = .ok (some (.seq (.array 3 (.basic .int))
          [.int (.basic .int) 0, .int (.basic .int) 0, .int (.basic .int) 0])) :=
    rfl
  rw [hval]
  simp

/-! ## `Convert`: the later strategies -/

theorem zeroAs_of_interface (tag shape : GoType) (hk : shape.kind = .Interface) :
    GoValue.zeroAs tag shape = .nilOf tag := by
  induction shape with
  | iface ms => rfl
  | named n u ih => simpa [GoValue.zeroAs] using ih hk
  | basic b => cases b <;> simp [GoType.kind, Basic.kind] at hk
  | _ => simp [GoType.kind] at hk

/-- For a target of interface kind the variable `to` is the nil interface, and
`to.Interface()` is nil. -/
theorem Interface_placeholder_of_interface (t : GoType)
    (hk : t.kind = .Interface) : (placeholder t).Interface = none := by
  have hp : placeholder t = .nilOf t := by
    have hnp : ¬ t.kind = .Pointer := by rw [hk]; decide
    simp only [placeholder, hnp, if_false]
    exact zeroAs_of_interface t t hk
  simp [hp, GoValue.Interface, GoValue.typeOf, hk]

/-- The type switch of lines 35-60 returns nothing when the target has no
decoder matching the input. -/
theorem decodeSwitch_none (h : Host) (v : GoValue) (toType : GoType)
    (htext : ∀ val f, v.Interface = some val → val.typeOf = GoType.string →
      ¬ TextDecodable h toType f)
    (hbin : ∀ val f, v.Interface = some val → val.typeOf = GoType.byteSlice →
      ¬ BinaryDecodable h toType f) :
    decodeSwitch h v.Interface (placeholder toType) = none := by
  cases hx : v.Interface with
  | none => rfl
  | some val =>
    by_cases hk : toType.kind = .Interface
    · simp only [decodeSwitch, Interface_placeholder_of_interface toType hk]
      split <;> [rfl; (split <;> rfl)]
    · simp only [decodeSwitch, Interface_placeholder toType hk,
        typeOf_placeholder]
      by_cases hs : val.typeOf = GoType.string
      · simp only [hs, if_true]
        cases hf : h.textUnmarshaler toType with
        | none => rfl
        | some f => exact absurd ⟨hk, hf⟩ (htext val f hx hs)
      · simp only [hs, if_false]
        by_cases hb : val.typeOf = GoType.byteSlice
        · simp only [hb, if_true]
          cases hf : h.binaryUnmarshaler toType with
          | none => rfl
          | some f => exact absurd ⟨hk, hf⟩ (hbin val f hx hb)
        · simp only [hb, if_false]

/-- Lines 62-81 when the map decoder is not called: the guard of lines 72-73
decides between the sequence branch and the plain return of line 81. -/
theorem convertTail_not_map (h : Host) (v : GoValue) (inType toType : GoType)
    (tgt : GoValue) (hm : v.typeOf.kind ≠ .Map) :
    convertTail h (.valid v) inType toType tgt =
      match seqGuard (.valid v) tgt with
      | .ok true =>
        match seqBranch h (.valid v) toType tgt with
        | .ok t => .ok (.valid t, some (cannotConvert inType toType))
        | .error p => .error p
      | .ok false => .ok (.valid tgt, some (cannotConvert inType toType))
      | .error p => .error p := by
  simp only [convertTail, Value.Kind, hm, if_false, bind, Except.bind, pure,
    Except.pure, Value.Type, Value.Interface, Bool.false_eq_true, seqGuard,
    seqBranch, cannotConvert]
  by_cases hg : (v.typeOf == GoType.anySlice && tgt.typeOf.kind == .Slice
      || tgt.typeOf.kind == .Array) = true
  · simp only [hg, if_true]
    cases assertAnySlice v.Interface with
    | error p => rfl
    | ok es =>
      dsimp only
      cases ConvertSlice h es toType with
      | error p => rfl
      | ok r =>
        dsimp only
        cases tgt.Set (ValueOf r) <;> rfl
  · rw [Bool.not_eq_true] at hg
    simp only [hg, Bool.false_eq_true, if_false]

/-- Lines 62-81 when the map decoder is called: its success is returned, and
after its failure the guard of lines 72-73 decides as before, on the variable
`to` as the decoder left it. -/
theorem convertTail_map (h : Host) (v : GoValue) (inType toType : GoType)
    (tgt : GoValue) (hm : v.typeOf.kind = .Map) :
    convertTail h (.valid v) inType toType tgt =
      match (h.mapDecode v.Interface tgt).2 with
      | none => .ok (.valid (h.mapDecode v.Interface tgt).1, none)
      | some _ =>
        match seqGuard (.valid v) (h.mapDecode v.Interface tgt).1 with
        | .ok true =>
          match seqBranch h (.valid v) toType
              (h.mapDecode v.Interface tgt).1 with
          | .ok t => .ok (.valid t, some (cannotConvert inType toType))
          | .error p => .error p
        | .ok false => .ok (.valid (h.mapDecode v.Interface tgt).1,
            some (cannotConvert inType toType))
        | .error p => .error p := by
  simp only [convertTail, Value.Kind, hm, if_true, bind, Except.bind, pure,
    Except.pure, Value.Type, Value.Interface, seqGuard, seqBranch,
    cannotConvert]
  cases hd : (h.mapDecode v.Interface tgt).2 with
  | none => simp
  | some e =>
    simp only [Option.isNone_some, Bool.false_eq_true, if_false]
    by_cases hg : (v.typeOf == GoType.anySlice &&
        (h.mapDecode v.Interface tgt).1.typeOf.kind == .Slice
        || (h.mapDecode v.Interface tgt).1.typeOf.kind == .Array) = true
    · simp only [hg, if_true]
      cases assertAnySlice v.Interface with
      | error p => rfl
      | ok es =>
        dsimp only
        cases ConvertSlice h es toType with
        | error p => rfl
        | ok r =>
          dsimp only
          cases (h.mapDecode v.Interface tgt).1.Set (ValueOf r) <;> rfl
    · rw [Bool.not_eq_true] at hg
      simp only [hg, Bool.false_eq_true, if_false]

/-- The guard of lines 72-73 on a variable `to` of the target type. -/
theorem seqGuard_eq (v tgt : GoValue) (toType : GoType)
    (ht : tgt.typeOf = toType) :
    seqGuard (.valid v) tgt = .ok (decide
      ((v.typeOf = GoType.anySlice ∧ toType.kind = .Slice)
        ∨ toType.kind = .Array)) := by
  simp only [seqGuard, Value.Type, bind, Except.bind, pure, Except.pure, ht]
  congr 1
  by_cases h1 : v.typeOf = GoType.anySlice <;>
    by_cases h2 : toType.kind = .Slice <;>
    by_cases h3 : toType.kind = .Array <;> simp [h1, h2, h3]

/-- Claim C13 (the terminal failure names both types): when the type of the
input differs from the target type, the input is not natively convertible, the
target has no text (binary) decoder for an input holding a `string` (a
`[]byte`), the input is not of map kind and the guard of the sequence branch
is false, `Convert` returns the variable `to` and the non-nil error whose
message is "cannot convert ", the name of the input type, " to ", the name of
the target type. -/
theorem Convert_exhausted (h : Host) (v : GoValue) (toType : GoType)
    (hne : v.typeOf ≠ toType) (hc : h.canConvert v toType = false)
    (htext : ∀ val f, v.Interface = some val → val.typeOf = GoType.string →
      ¬ TextDecodable h toType f)
    (hbin : ∀ val f, v.Interface = some val → val.typeOf = GoType.byteSlice →
      ¬ BinaryDecodable h toType f)
    (hmap : v.typeOf.kind ≠ .Map)
    (hguard : ¬ ((v.typeOf = GoType.anySlice ∧ toType.kind = .Slice)
      ∨ toType.kind = .Array)) :
    Convert h (.valid v) toType =
      .ok (.valid (placeholder toType), some (.errorf
        ("cannot convert " ++ v.typeOf.String ++ " to " ++ toType.String))) := by
  rw [Convert_later h v toType hne hc, decodeSwitch_none h v toType htext hbin]
  dsimp only
  rw [convertTail_not_map h v _ _ _ hmap,
    seqGuard_eq v _ toType (typeOf_placeholder toType)]
  simp only [hguard, decide_False]
  rfl

/-- Witness of C13: `true` to `string` fails with "cannot convert bool to
string". -/
theorem Convert_exhausted_witness :
    Convert demoHost (.valid (.bool (.basic .bool) true)) GoType.string =
      .ok (.valid (.str GoType.string ""),
        some (.errorf "cannot convert bool to string")) :=
  Convert_exhausted demoHost (.bool (.basic .bool) true) GoType.string
    (by decide) rfl
    (fun val f hx hs => by
      simp only [GoValue.Interface, GoValue.typeOf] at hx
      have hval : val = .bool (.basic .bool) true := by
        simpa [GoType.kind, Basic.kind] using hx.symm
      subst hval
      exact absurd hs (by decide))
    (fun val f hx hs => by
      simp only [GoValue.Interface, GoValue.typeOf] at hx
      have hval : val = .bool (.basic .bool) true := by
        simpa [GoType.kind, Basic.kind] using hx.symm
      subst hval
      exact absurd hs (by decide))
    (by decide) (by decide)

/-- An input of map kind takes no case of the type switch. -/
theorem decodeSwitch_map (h : Host) (v tgt : GoValue)
    (hm : v.typeOf.kind = .Map) :
    v.Interface = some v ∧ decodeSwitch h v.Interface tgt = none := by
  have hki : v.typeOf.kind ≠ .Interface := by rw [hm]; decide
  have h1 : ¬ v.typeOf = GoType.string := by
    intro hs; rw [hs] at hm; exact absurd hm (by decide)
  have h2 : ¬ v.typeOf = GoType.byteSlice := by
    intro hs; rw [hs] at hm; exact absurd hm (by decide)
  refine ⟨Interface_of_not_interface v hki, ?_⟩
  simp [Interface_of_not_interface v hki, decodeSwitch, h1, h2]

/-- Claim C14 (structural map decoding succeeds or falls through): for an
input of map kind, neither of the target type nor natively convertible, and a
target that is not of array kind, `mapstructure.Decode` is called on the
variable `to` (a zero value of the target type; for a target of pointer kind a
pointer to one).  When it returns a nil error, `Convert` returns `to` as
populated, with a nil error; when it returns an error `e`, `Convert` does not
return `e`: it goes on and ends with the "cannot convert" error naming the
input type and the target type. -/
theorem Convert_map_decode (h : Host) (v : GoValue) (toType : GoType)
    (hm : v.typeOf.kind = .Map) (hne : v.typeOf ≠ toType)
    (hc : h.canConvert v toType = false) (ha : toType.kind ≠ .Array) :
    ((h.mapDecode (some v) (placeholder toType)).2 = none →
      Convert h (.valid v) toType =
        .ok (.valid (h.mapDecode (some v) (placeholder toType)).1, none)) ∧
    (∀ e, (h.mapDecode (some v) (placeholder toType)).2 = some e →
      Convert h (.valid v) toType =
        .ok (.valid (h.mapDecode (some v) (placeholder toType)).1,
          some (.errorf ("cannot convert " ++ v.typeOf.String ++ " to "
            ++ toType.String)))) := by
  obtain ⟨hi, hsw⟩ := decodeSwitch_map h v (placeholder toType) hm
  have hconv : Convert h (.valid v) toType =
      convertTail h (.valid v) v.typeOf toType (placeholder toType) := by
    rw [Convert_later h v toType hne hc, hsw]
  rw [hconv, convertTail_map h v _ _ _ hm, hi]
  constructor
  · intro hnone
    rw [hnone]
  · intro e he
    have hns : ¬ v.typeOf = GoType.anySlice := by
      intro hs; rw [hs] at hm; exact absurd hm (by decide)
    rw [he]
    dsimp only
    rw [seqGuard_eq v _ toType
      ((h.mapDecode_type _ _).trans (typeOf_placeholder toType))]
    simp only [hns, ha, false_and, or_self, decide_False]
    rfl

/-- Witness of C14: a non-nil `map[string]any` into the struct `Blob`, which
the decoder of `demoHost` fills, and into `int`, which it rejects. -/
theorem Convert_map_decode_witness :
    Convert demoHost
        (.valid (.other (.map GoType.string GoType.any) 1)) blobType
      = .ok (.valid (.other blobType 1), none) ∧
    Convert demoHost
        (.valid (.other (.map GoType.string GoType.any) 1)) (.basic .int)
      = .ok (.valid (.int (.basic .int) 0), some (.errorf
          "cannot convert map[string]interface \x7b\x7d to int")) :=
  ⟨(Convert_map_decode demoHost (.other (.map GoType.string GoType.any) 1)
      blobType rfl (by decide) rfl (by decide)).1 rfl,
    (Convert_map_decode demoHost (.other (.map GoType.string GoType.any) 1)
      (.basic .int) rfl (by decide) rfl (by decide)).2
      (.collaborator "expected a map or struct target") rfl⟩

/-- Claim C15 (idempotence of the identity and native paths): when `Convert`
succeeds through the identity strategy (the input has the target type) or the
native-conversion strategy (reflect can convert it), with the result `r`, then
`Convert` of `r` to the same target type succeeds and returns `r`. -/
theorem Convert_idempotent (h : Host) (v : GoValue) (toType : GoType)
    (hpath : v.typeOf = toType ∨ h.canConvert v toType = true) :
    ∃ r, Convert h (.valid v) toType = .ok (.valid r, none) ∧
      Convert h (.valid r) toType = .ok (.valid r, none) := by
  have hid : ∀ r : GoValue, r.typeOf = toType →
      Convert h (.valid r) toType = .ok (.valid r, none) := by
    intro r hr
    simp [Convert, Value.Type, hr, bind, Except.bind, pure, Except.pure]
  by_cases hT : v.typeOf = toType
  · exact ⟨v, hid v hT, hid v hT⟩
  · have hc : h.canConvert v toType = true := hpath.resolve_left hT
    refine ⟨h.convert v toType, ?_, hid _ (h.convert_type v toType hc)⟩
    simp [Convert, Value.Type, Value.CanConvert, Value.Convert, hT, hc, bind,
      Except.bind, pure, Except.pure]

/-- Witness of C15: the `int` 300 converts to the `int8` 44, and 44 converts
to itself. -/
theorem Convert_idempotent_witness :
    ∃ r, Convert demoHost (.valid (.int (.basic .int) 300)) (.basic .int8)
        = .ok (.valid r, none) ∧
      Convert demoHost (.valid r) (.basic .int8) = .ok (.valid r, none) :=
  Convert_idempotent demoHost (.int (.basic .int) 300) (.basic .int8)
    (Or.inr rfl)

/-! ## The guard of the sequence branch -/

/-- Claim C16, as the code has it: on an input `v` and the variable `to` of
target type `toType`, the guard of lines 72-73 is satisfied exactly when the
type of the input is `[]any` and the kind of the target is slice, or the kind
of the target is array. -/
theorem seqGuard_iff (v tgt : GoValue) (toType : GoType)
    (ht : tgt.typeOf = toType) :
    seqGuard (.valid v) tgt = .ok true ↔
      ((v.typeOf = GoType.anySlice ∧ toType.kind = .Slice)
        ∨ toType.kind = .Array) := by
  rw [seqGuard_eq v tgt toType ht]
  simp

/-- Witness of C16 as the code has it: the guard holds for the string "abc"
and the target `[3]int`. -/
theorem seqGuard_iff_witness :
    seqGuard (.valid (.str GoType.string "abc"))
        (GoValue.zero (.array 3 (.basic .int))) = .ok true ↔
      (((GoValue.str GoType.string "abc").typeOf = GoType.anySlice ∧
          (GoType.array 3 (.basic .int)).kind = .Slice)
        ∨ (GoType.array 3 (.basic .int)).kind = .Array) :=
  seqGuard_iff (.str GoType.string "abc")
    (GoValue.zero (.array 3 (.basic .int))) (.array 3 (.basic .int)) rfl

/-- Counterexample to C16 as stated: the input `[]any{1}` has the type `[]any`
and reaches the guard with the target `int` (it is neither an `int` nor
convertible, takes no case of the type switch and is no map), yet the guard is
not satisfied: the target is not of slice kind. -/
theorem seqGuard_anySlice_to_int :
    (GoValue.seq GoType.anySlice
        [.iface GoType.any (.int (.basic .int) 1)]).typeOf = GoType.anySlice ∧
      seqGuard
        (.valid (.seq GoType.anySlice [.iface GoType.any (.int (.basic .int) 1)]))
        (placeholder (.basic .int)) = .ok false ∧
      Convert demoHost
        (.valid (.seq GoType.anySlice [.iface GoType.any (.int (.basic .int) 1)]))
        (.basic .int)
        = convertTail demoHost
          (.valid (.seq GoType.anySlice
            [.iface GoType.any (.int (.basic .int) 1)]))
          GoType.anySlice (.basic .int) (placeholder (.basic .int)) := by
  exact ⟨rfl, rfl, rfl⟩

/-! ## Types of the results -/

/-- What the type switch returns with a nil error has the target type. -/
theorem decodeSwitch_type (h : Host) (x : Option GoValue) (toType : GoType)
    (r : Value) (hr : decodeSwitch h x (placeholder toType) = some (r, none)) :
    r.Type = .ok toType := by
  by_cases hk : toType.kind = .Interface
  · exfalso
    cases x with
    | none => simp [decodeSwitch] at hr
    | some val =>
      simp only [decodeSwitch, Interface_placeholder_of_interface toType hk]
        at hr
      split at hr
      · cases hr
      · split at hr <;> cases hr
  · cases x with
    | none => simp [decodeSwitch] at hr
    | some val =>
      simp only [decodeSwitch, Interface_placeholder toType hk,
        typeOf_placeholder] at hr
      split at hr
      · cases hf : h.textUnmarshaler toType with
        | none => rw [hf] at hr; cases hr
        | some f =>
          rw [hf] at hr
          dsimp only at hr
          cases hd : f (placeholder toType) (bytesOf val.stringOf) with
          | error e => rw [hd] at hr; cases hr
          | ok u =>
            rw [hd] at hr
            simp only [ValueOf, Option.some.injEq, Prod.mk.injEq, and_true]
              at hr
            subst hr
            simp [Value.Type, h.text_type toType f _ _ u hf hd]
      · split at hr
        · cases hf : h.binaryUnmarshaler toType with
          | none => rw [hf] at hr; cases hr
          | some f =>
            rw [hf] at hr
            dsimp only at hr
            cases hd : f (placeholder toType) val with
            | error e => rw [hd] at hr; cases hr
            | ok u =>
              rw [hd] at hr
              simp only [ValueOf, Option.some.injEq, Prod.mk.injEq, and_true]
                at hr
              subst hr
              simp [Value.Type, h.binary_type toType f _ _ u hf hd]
        · cases hr

/-- What lines 62-81 return with a nil error is the variable `to` as the map
decoder populated it. -/
theorem convertTail_type (h : Host) (v : GoValue) (inType toType : GoType)
    (r : Value)
    (hr : convertTail h (.valid v) inType toType (placeholder toType)
      = .ok (r, none)) :
    r.Type = .ok toType := by
  by_cases hm : v.typeOf.kind = .Map
  · rw [convertTail_map h v _ _ _ hm] at hr
    cases hd : (h.mapDecode v.Interface (placeholder toType)).2 with
    | none =>
      rw [hd] at hr
      simp only [Except.ok.injEq, Prod.mk.injEq, and_true] at hr
      subst hr
      simp [Value.Type, h.mapDecode_type]
    | some e =>
      rw [hd] at hr
      dsimp only at hr
      split at hr
      · split at hr <;> cases hr
      · cases hr
      · cases hr
  · rw [convertTail_not_map h v _ _ _ hm] at hr
    split at hr
    · split at hr <;> cases hr
    · cases hr
    · cases hr

/-- Claim C17 (type soundness of success): whenever `Convert` returns a nil
error, on the identity, native-conversion, text-decode, binary-decode or
map-decode path, the value returned with it has exactly the target type. -/
theorem Convert_type_sound (h : Host) (inV : Value) (toType : GoType)
    (r : Value) (hr : Convert h inV toType = .ok (r, none)) :
    r.Type = .ok toType := by
  cases inV with
  | invalid => simp [Convert, Value.Type, bind, Except.bind] at hr
  | valid v =>
    by_cases hT : v.typeOf = toType
    · simp only [Convert, Value.Type, hT, if_true, bind, Except.bind, pure,
        Except.pure, Except.ok.injEq, Prod.mk.injEq, and_true] at hr
      subst hr
      simp [Value.Type, hT]
    · by_cases hc : h.canConvert v toType = true
      · simp only [Convert, Value.Type, Value.CanConvert, Value.Convert, hT,
          hc, if_true, if_false, bind, Except.bind, pure, Except.pure,
          Except.ok.injEq, Prod.mk.injEq, and_true] at hr
        subst hr
        simp [Value.Type, h.convert_type v toType hc]
      · rw [Bool.not_eq_true] at hc
        rw [Convert_later h v toType hT hc] at hr
        cases hd : decodeSwitch h v.Interface (placeholder toType) with
        | some res =>
          rw [hd] at hr
          simp only [Except.ok.injEq] at hr
          subst hr
          exact decodeSwitch_type h _ toType r hd
        | none =>
          rw [hd] at hr
          exact convertTail_type h v _ toType r hr

/-- Witness of C17: the string "abc" into `*Level` returns a nil error and a
value of type `*Level`. -/
theorem Convert_type_sound_witness :
    Convert demoHost (.valid (.str GoType.string "abc")) (.pointer levelType)
        = .ok (.valid (.ptr (.pointer levelType) (.int levelType 3)), none) ∧
      (Value.valid (.ptr (.pointer levelType) (.int levelType 3))).Type
        = .ok (.pointer levelType) :=
  ⟨rfl, Convert_type_sound demoHost (.valid (.str GoType.string "abc"))
    (.pointer levelType) (.valid (.ptr (.pointer levelType) (.int levelType 3)))
    rfl⟩

/-! ## The value on the sequence path -/

/-- For a target of slice or array kind, what `ConvertSlice` returns is a
non-nil `any` holding a value of the target type. -/
theorem ConvertSlice_type (h : Host) (inp : List (Option GoValue))
    (toType : GoType) (hk : toType.kind = .Slice ∨ toType.kind = .Array)
    (r : Option GoValue) (hr : ConvertSlice h inp toType = .ok r) :
    ∃ x, r = some x ∧ x.typeOf = toType := by
  rcases hk with hk | hk
  · obtain ⟨E, hE⟩ := Elem_of_slice toType hk
    rw [ConvertSlice_slice_eq h inp toType E hk hE] at hr
    cases hrun : elemsRun h E inp with
    | error p => rw [hrun] at hr; cases hr
    | ok rs =>
      rw [hrun] at hr
      simp only [Except.ok.injEq] at hr
      subst hr
      refine ⟨_, rfl, ?_⟩
      cases inp <;> simp [GoValue.typeOf]
  · obtain ⟨m, E, hm, hE⟩ := Len_of_array toType hk
    by_cases hlen : m = inp.length
    · rw [ConvertSlice_array_eq h inp toType E hk (hlen ▸ hm) hE] at hr
      cases hrun : elemsRun h E inp with
      | error p => rw [hrun] at hr; cases hr
      | ok rs =>
        rw [hrun] at hr
        simp only [Except.ok.injEq] at hr
        subst hr
        exact ⟨_, rfl, rfl⟩
    · have hz : GoValue.zero toType
          = .seq toType (List.replicate m (GoValue.zero E)) :=
        zeroAs_of_array toType toType m E hm hE
      have hns : ¬ toType.kind = .Slice := by rw [hk]; decide
      have hki : toType.kind ≠ .Interface := by rw [hk]; decide
      unfold ConvertSlice at hr
      simp only [typeOf_zero, hns, if_false, pure, Except.pure] at hr
      rw [hz] at hr
      simp only [GoValue.len, List.length_replicate, hlen, and_false, if_false,
        GoValue.Interface, GoValue.typeOf, hki, Except.ok.injEq] at hr
      subst hr
      exact ⟨_, rfl, rfl⟩

/-- Claim C18 (the value produced on the sequence path): for an input of type
`[]any`, neither of the target type nor natively convertible, and a target of
slice or array kind, no earlier strategy returns, and `Convert` ends as
`ConvertSlice` on the elements of the input does: with the same panic, or
returning as its value what `ConvertSlice` returned, together with the error
of line 81. -/
theorem Convert_value_on_sequence_path (h : Host) (v : GoValue)
    (toType : GoType) (hin : v.typeOf = GoType.anySlice)
    (hk : toType.kind = .Slice ∨ toType.kind = .Array)
    (hne : v.typeOf ≠ toType) (hc : h.canConvert v toType = false) :
    Convert h (.valid v) toType =
      match ConvertSlice h (v.elems.map GoValue.Interface) toType with
      | .ok r => .ok (ValueOf r, some (cannotConvert v.typeOf toType))
      | .error p => .error p := by
  have hm : v.typeOf.kind ≠ .Map := by rw [hin]; decide
  have hki : v.typeOf.kind ≠ .Interface := by rw [hin]; decide
  have hg : ((v.typeOf = GoType.anySlice ∧ toType.kind = .Slice)
      ∨ toType.kind = .Array) := by
    rcases hk with hk | hk
    · exact Or.inl ⟨hin, hk⟩
    · exact Or.inr hk
  rw [Convert_later h v toType hne hc, decodeSwitch_anySlice h v _ hin]
  dsimp only
  rw [convertTail_not_map h v _ _ _ hm,
    seqGuard_eq v _ toType (typeOf_placeholder toType), decide_eq_true hg]
  dsimp only
  have hbranch : seqBranch h (.valid v) toType (placeholder toType) =
      match ConvertSlice h (v.elems.map GoValue.Interface) toType with
      | .ok r => (placeholder toType).Set (ValueOf r)
      | .error p => .error p := by
    simp only [seqBranch, Value.Interface, Interface_of_not_interface v hki,
      assertAnySlice, hin, if_true, bind, Except.bind]
    cases ConvertSlice h (v.elems.map GoValue.Interface) toType <;> rfl
  rw [hbranch]
  cases hs : ConvertSlice h (v.elems.map GoValue.Interface) toType with
  | error p => rfl
  | ok r =>
    obtain ⟨x, hx, hty⟩ := ConvertSlice_type h _ toType hk r hs
    subst hx
    simp [ValueOf, GoValue.Set, hty]

/-- Witness of C18: `[]any{1}` to `[]int`; `ConvertSlice` returns `[]int{1}`,
which `Convert` returns as its value. -/
theorem Convert_value_on_sequence_path_witness :
    ConvertSlice demoHost [some (.int (.basic .int) 1)] (.slice (.basic .int))
        = .ok (some (.seq (.slice (.basic .int)) [.int (.basic .int) 1])) ∧
      Convert demoHost
        (.valid (.seq GoType.anySlice [.iface GoType.any (.int (.basic .int) 1)]))
        (.slice (.basic .int))
      = .ok (.valid (.seq (.slice (.basic .int)) [.int (.basic .int) 1]),
          some (cannotConvert GoType.anySlice (.slice (.basic .int)))) :=
  ⟨rfl, Convert_value_on_sequence_path demoHost
    (.seq GoType.anySlice [.iface GoType.any (.int (.basic .int) 1)])
    (.slice (.basic .int)) rfl (Or.inl rfl) (by decide) rfl⟩
end Reflectutil
